import Mathlib

/-!
Shallow embedding of the dymo-bluetooth label-printer core
(`dymo_bluetooth/printer.py`, plus the print-session reply handling of
`dymo_bluetooth/bluetooth.py`).

Bytes are modelled as `Nat` values.  Python's `BytesIO` buffer is modelled
as a `List Nat` together with explicit positional one-byte read/write
(`seek` + `read(1)` / `write`), where reading past the end yields 0 without
growing the buffer and writing past the end zero-fills the gap — exactly
the `BytesIO` behaviour the source relies on.
-/

/-- Bytes per column of a canvas (`Canvas.BYTES_PER_LINE = 4`). -/
def BYTES_PER_LINE : Nat := 4

/-- Maximum byte count in the growing direction (`Canvas.MAX_LENGTH = 1024`). -/
def MAX_LENGTH : Nat := 1024

/-- Reading one byte at position `p` of a `BytesIO` buffer:
`(self.buffer.read(1) or b"\x00")[0]` — a position past the end reads
as 0 and the buffer is not grown. -/
def readByte (buf : List Nat) (p : Nat) : Nat := buf.getD p 0

/-- Writing one byte `v` at position `p` of a `BytesIO` buffer: an existing
byte is overwritten in place; a write past the end zero-fills the gap up to
position `p`, as `BytesIO.write` after an out-of-range `seek` does. -/
def writeByteAt : List Nat → Nat → Nat → List Nat
  | [], 0, v => [v]
  | [], p + 1, v => 0 :: writeByteAt [] p v
  | _ :: rest, 0, v => v :: rest
  | b :: rest, p + 1, v => b :: writeByteAt rest p v

/-- Canvas: 1-bit monochrome image, the `BytesIO` contents as a byte list. -/
structure Canvas where
  buffer : List Nat
deriving DecidableEq, Repr

/-- Fresh canvas (`Canvas.__init__`): empty buffer. -/
def Canvas.init : Canvas := ⟨[]⟩

/-- Byte position addressing pixel `(x, y)`: the source seeks to
`x_offset + y_offset` with `x_offset = x * BYTES_PER_LINE` and
`y_offset = BYTES_PER_LINE - 1 - math.floor(y / 8)`. -/
def pixelPos (x y : Nat) : Nat :=
  x * BYTES_PER_LINE + (BYTES_PER_LINE - 1 - y / 8)

/-- Canvas.get_pixel: reads the byte at `pixelPos x y` and tests
`bool(value & (1 << (7 - (y % 8))))`, i.e. bit `7 - y % 8` of that byte.
The read does not modify the buffer, so this is a pure function. -/
def Canvas.get_pixel (c : Canvas) (x y : Nat) : Bool :=
  (readByte c.buffer (pixelPos x y)).testBit (7 - y % 8)

/-- Canvas.set_pixel: reads the byte at `pixelPos x y`, sets the bit with
`value | (1 << (7 - y % 8))` for black, clears it with
`value & ~(1 << (7 - y % 8))` for white (on a nonnegative int that is
exactly and-not, `Nat.ldiff`), and writes the byte back. -/
def Canvas.set_pixel (c : Canvas) (x y : Nat) (color : Bool) : Canvas :=
  let p := pixelPos x y
  let value := readByte c.buffer p
  let value' := if color then value ||| (1 <<< (7 - y % 8))
                else Nat.ldiff value (1 <<< (7 - y % 8))
  ⟨writeByteAt c.buffer p value'⟩

/-- Canvas._get_byte_size: current length of the buffer. -/
def Canvas.byte_size (c : Canvas) : Nat := c.buffer.length

/-- Canvas.width = `math.ceil(byte_size / BYTES_PER_LINE)`
(ceiling division on naturals). -/
def Canvas.width (c : Canvas) : Nat :=
  (c.byte_size + (BYTES_PER_LINE - 1)) / BYTES_PER_LINE

/-- Canvas.height: the fixed `BYTES_PER_LINE * 8 = 32`. -/
def Canvas.height (_ : Canvas) : Nat := BYTES_PER_LINE * 8

/-- Canvas.get_image: the buffer followed by `len(buffer) % BYTES_PER_LINE`
zero bytes (the source pads with `self.buffer.tell() % self.BYTES_PER_LINE`
zeros after reading the whole buffer). -/
def Canvas.get_image (c : Canvas) : List Nat :=
  c.buffer ++ List.replicate (c.buffer.length % BYTES_PER_LINE) 0

/-- Canvas.empty: truncates to zero, seeks to the old size and writes one
zero byte, so the buffer becomes `size + 1` zero bytes. -/
def Canvas.empty (c : Canvas) : Canvas :=
  ⟨List.replicate (c.byte_size + 1) 0⟩

/-- Canvas.copy: a new canvas with the same buffer contents. -/
def Canvas.copy (c : Canvas) : Canvas := ⟨c.buffer⟩

/-- Canvas.clear: truncates the buffer to length 0. -/
def Canvas.clear (_ : Canvas) : Canvas := ⟨[]⟩

/-- Canvas.revert: each byte xor-ed with 0xFF (`byt[0] ^ 0xFF`). -/
def Canvas.revert (c : Canvas) : Canvas :=
  ⟨c.buffer.map fun b => b ^^^ 0xFF⟩

/-- Canvas.fill: `to_left * BYTES_PER_LINE` zero bytes, then `get_image`,
then `to_right * BYTES_PER_LINE` zero bytes. -/
def Canvas.fill (c : Canvas) (to_left to_right : Nat) : Canvas :=
  ⟨List.replicate (to_left * BYTES_PER_LINE) 0 ++ c.get_image
    ++ List.replicate (to_right * BYTES_PER_LINE) 0⟩

/-- Canvas.pad: returns a copy when `width >= until`, else fills both sides
with `side = math.ceil((until - width) / 2)` blank columns (the `until`
parameter is named `until_px` here, `until` being reserved in Lean). -/
def Canvas.pad (c : Canvas) (until_px : Nat) : Canvas :=
  if c.width ≥ until_px then c.copy
  else c.fill ((until_px - c.width + 1) / 2) ((until_px - c.width + 1) / 2)

/-- Canvas.stretch: for each source column `x`, row `y`, copies the pixel to
columns `x * factor + i` for `i < factor` of a fresh canvas (the source
loops `x` over `range(width)`, `y` over `range(height)`, `i` over
`range(factor)`); `factor < 1` raises before any work. -/
def Canvas.stretch (c : Canvas) (factor : Nat) : Canvas :=
  (List.range c.width).foldl (fun acc x =>
    (List.range c.height).foldl (fun acc2 y =>
      let pixel := c.get_pixel x y
      (List.range factor).foldl (fun acc3 i =>
        acc3.set_pixel (x * factor + i) y pixel) acc2) acc) Canvas.init

/-- Canvas.__eq__: two canvases are equal iff their `get_image` serializations
are byte-identical. -/
def Canvas.image_eq (a b : Canvas) : Bool := a.get_image == b.get_image

/-- Result enumeration of `printer.py` (print job outcomes). -/
inductive Result where
  | SUCCESS
  | FAILED
  | SUCCESS_LOW_BATTERY
  | FAILED_CANCEL
  | FAILED_LOW_BATTERY
  | FAILED_NO_CASETTE
deriving DecidableEq, Repr

/-- Numeric enum values of the `Result` members. -/
def Result.value : Result → Nat
  | .SUCCESS => 0
  | .FAILED => 2
  | .SUCCESS_LOW_BATTERY => 3
  | .FAILED_CANCEL => 4
  | .FAILED_LOW_BATTERY => 6
  | .FAILED_NO_CASETTE => 7

/-- Enum lookup `Result(value)`; `none` models the `ValueError` Python raises
when the value is not an enumeration member. -/
def Result.of_value : Nat → Option Result
  | 0 => some .SUCCESS
  | 2 => some .FAILED
  | 3 => some .SUCCESS_LOW_BATTERY
  | 4 => some .FAILED_CANCEL
  | 6 => some .FAILED_LOW_BATTERY
  | 7 => some .FAILED_NO_CASETTE
  | _ => none

/-- Failure modes of `Result.from_bytes`: the two explicit `ValueError`
raises for a bad two-byte preamble, the enum-lookup `ValueError` for an
unknown status code, and `IndexError` for replies shorter than 3 bytes. -/
inductive ReplyError where
  | malformed
  | unrecognized
  | too_short
deriving DecidableEq, Repr

/-- Result.from_bytes: requires `data[0] == 27` and `data[1] == ord('R') = 82`,
maps the raw code 5 to FAILED and 1 to SUCCESS, and otherwise looks the
code up in the enumeration. -/
def Result.from_bytes : List Nat → Except ReplyError Result
  | b0 :: b1 :: b2 :: _ =>
    if b0 ≠ 27 then .error .malformed
    else if b1 ≠ 82 then .error .malformed
    else if b2 = 5 then .ok .FAILED
    else if b2 = 1 then .ok .SUCCESS
    else match Result.of_value b2 with
         | some r => .ok r
         | none => .error .unrecognized
  | _ => .error .too_short

/-- Little-endian 4-byte encoding `n.to_bytes(4, "little")`; faithful for
`n < 2^32` (Python raises OverflowError for larger values). -/
def toBytesLE4 (n : Nat) : List Nat :=
  [n % 256, n / 256 % 256, n / 65536 % 256, n / 16777216 % 256]

/-- Directive kinds accepted by the printer (`DirectiveCommand`). -/
inductive DirectiveCommand where
  | START
  | MEDIA_TYPE
  | PRINT_DENSITY
  | PRINT_DATA
  | FORM_FEED
  | STATUS
  | END
deriving DecidableEq, Repr

/-- Opcode byte of each directive (`ord` of its one-character value:
"s", "M", "C", "D", "E", "A", "Q"). -/
def DirectiveCommand.opcode : DirectiveCommand → Nat
  | .START => 115
  | .MEDIA_TYPE => 77
  | .PRINT_DENSITY => 67
  | .PRINT_DATA => 68
  | .FORM_FEED => 69
  | .STATUS => 65
  | .END => 81

/-- DirectiveCommand.to_bytes: escape byte 27 followed by the opcode. -/
def DirectiveCommand.to_bytes (d : DirectiveCommand) : List Nat :=
  [27, d.opcode]

/-- DirectiveBuilder.start: START directive with the fixed job-id constant. -/
def DirectiveBuilder.start : List Nat :=
  DirectiveCommand.START.to_bytes ++ [154, 2, 0, 0]

/-- DirectiveBuilder.media_type. -/
def DirectiveBuilder.media_type (value : Nat) : List Nat :=
  DirectiveCommand.MEDIA_TYPE.to_bytes ++ [value]

/-- DirectiveBuilder.form_feed. -/
def DirectiveBuilder.form_feed : List Nat := DirectiveCommand.FORM_FEED.to_bytes

/-- DirectiveBuilder.status. -/
def DirectiveBuilder.status : List Nat := DirectiveCommand.STATUS.to_bytes

/-- DirectiveBuilder.end (named `end_job` here since `end` is reserved). -/
def DirectiveBuilder.end_job : List Nat := DirectiveCommand.END.to_bytes

/-- DirectiveBuilder.print: `[ESC, ord('D'), bits_per_pixel, alignment]`,
the width and height each as 4 little-endian bytes, then the data. -/
def DirectiveBuilder.print (data : List Nat)
    (image_width image_height bits_per_pixel alignment : Nat) : List Nat :=
  DirectiveCommand.PRINT_DATA.to_bytes ++ [bits_per_pixel, alignment]
    ++ toBytesLE4 image_width ++ toBytesLE4 image_height ++ data

/-- Chunk size constant of `create_payload`. -/
def CHUNK_SIZE : Nat := 500

/-- Magic value `[18, 52]` of `create_payload`. -/
def MAGIC : List Nat := [18, 52]

/-- Header built by `create_payload`: preamble 255, flags 240, the magic,
the data length as 4 little-endian bytes, then the checksum
`sum(header) & 0xFF` of those first 8 bytes. -/
def payloadHeader (data_len : Nat) : List Nat :=
  let header := [255, 240] ++ MAGIC ++ toBytesLE4 data_len
  header ++ [header.sum % 256]

/-- Chunking loop of `create_payload` for print payloads:
`for index, step in enumerate(range(0, len(data), CHUNK_SIZE))` becomes a
map over `index < ceil(len(data) / CHUNK_SIZE)` with `step = index *
CHUNK_SIZE`; each iteration emits the (27-skipping) chunk index byte, the
slice `data[step : step + CHUNK_SIZE]`, and — on the last chunk, when
`step + CHUNK_SIZE >= len(data)` — the trailing magic. -/
def printChunks (data : List Nat) : List (List Nat) :=
  (List.range ((data.length + CHUNK_SIZE - 1) / CHUNK_SIZE)).map fun index =>
    let step := index * CHUNK_SIZE
    let chunk_index := if index ≥ 27 then index + 1 else index
    let chunk := (data.drop step).take CHUNK_SIZE
    if step + CHUNK_SIZE ≥ data.length
    then (chunk_index :: chunk) ++ MAGIC
    else chunk_index :: chunk

/-- create_payload: the 9-byte header, then — for print payloads — the
indexed chunks; for non-print payloads the data is appended to the header
itself and a single chunk is produced. -/
def create_payload (data : List Nat) (is_print : Bool) : List (List Nat) :=
  let header := payloadHeader data.length
  if is_print then header :: printChunks data
  else [header ++ data]

/-- Directive stream assembled by `command_print` before framing:
START, PRINT_DATA of the serialized image (1 bit per pixel, alignment 2),
FORM_FEED, STATUS, END. -/
def command_print_payload (canvas : Canvas) : List Nat :=
  DirectiveBuilder.start
    ++ DirectiveBuilder.print canvas.get_image canvas.width canvas.height 1 2
    ++ DirectiveBuilder.form_feed ++ DirectiveBuilder.status
    ++ DirectiveBuilder.end_job

/-- command_print: the directive stream framed as a print payload. -/
def command_print (canvas : Canvas) : List (List Nat) :=
  create_payload (command_print_payload canvas) true

/-- command_casette: START, MEDIA_TYPE, END framed as a non-print payload. -/
def command_casette (media_type : Nat) : List (List Nat) :=
  create_payload (DirectiveBuilder.start ++ DirectiveBuilder.media_type media_type
    ++ DirectiveBuilder.end_job) false

/-- State of the `Printer.print` reply handling: the `should_discard` flag
captured by the `reply_get` closure, and the list of `future.set_result`
calls made so far (the asyncio future is resolved by the first entry; a
second `set_result` would raise InvalidStateError). -/
structure ReplySession where
  should_discard : Bool
  resolutions : List Result
deriving DecidableEq, Repr

/-- Initial session state: flag unset, future pending. -/
def ReplySession.init : ReplySession := ⟨false, []⟩

/-- One invocation of the `reply_get` notification callback: decode the
reply; if decoding raises, the exception leaves the session state unchanged;
if the flag is unset and the decoded value is in `[0, 1]`, set the flag and
return; otherwise call `future.set_result` with the decoded result. -/
def reply_get (st : ReplySession) (data : List Nat) : ReplySession :=
  match Result.from_bytes data with
  | .error _ => st
  | .ok result =>
    if !st.should_discard && (result.value == 0 || result.value == 1) then
      { st with should_discard := true }
    else
      { st with resolutions := st.resolutions ++ [result] }

/-- Processing the ordered sequence of received notifications of one job. -/
def run_replies (notifications : List (List Nat)) : ReplySession :=
  notifications.foldl reply_get ReplySession.init

/-! Helper lemmas about the byte-buffer primitives. -/

/-- Reading back the byte just written at the same position. -/
theorem readByte_writeByteAt_self : ∀ (buf : List Nat) (p v : Nat),
    readByte (writeByteAt buf p v) p = v := by
  intro buf
  induction buf with
  | nil =>
    intro p v
    induction p with
    | zero => rfl
    | succ n ih => simpa [writeByteAt, readByte] using ih
  | cons b rest ih =>
    intro p v
    cases p with
    | zero => rfl
    | succ n => simpa [writeByteAt, readByte] using ih n v

/-- Writing one byte leaves every other position unchanged. -/
theorem readByte_writeByteAt_ne : ∀ (buf : List Nat) (p q v : Nat), q ≠ p →
    readByte (writeByteAt buf p v) q = readByte buf q := by
  intro buf
  induction buf with
  | nil =>
    intro p
    induction p with
    | zero =>
      intro q v hq
      match q, hq with
      | n + 1, _ => simp [writeByteAt, readByte]
    | succ n ih =>
      intro q v hq
      match q with
      | 0 => simp [writeByteAt, readByte]
      | m + 1 =>
        have : m ≠ n := by omega
        simpa [writeByteAt, readByte] using ih m v this
  | cons b rest ih =>
    intro p q v hq
    cases p with
    | zero =>
      match q, hq with
      | m + 1, _ => simp [writeByteAt, readByte]
    | succ n =>
      match q with
      | 0 => simp [writeByteAt, readByte]
      | m + 1 =>
        have : m ≠ n := by omega
        simpa [writeByteAt, readByte] using ih n m v this

/-- Bit test of a single shifted-in bit. -/
theorem testBit_one_shiftLeft (k j : Nat) :
    (1 <<< k).testBit j = decide (k = j) := by
  rw [Nat.shiftLeft_eq, one_mul, Nat.testBit_two_pow]

/-- C8: for every in-bounds coordinate pair (x < 8192 = MAX_LENGTH * 8,
y < 32 = BYTES_PER_LINE * 8), `set_pixel(x, y, True)` followed by
`get_pixel(x, y)` returns true, `set_pixel(x, y, False)` followed by
`get_pixel(x, y)` returns false, and `get_pixel` on a never-set pixel of a
fresh canvas returns false (`get_pixel` is embedded as a pure function
because the underlying read never grows the buffer). -/
theorem set_pixel_get_pixel (C : Canvas) (x y : Nat)
    (hx : x < 8192) (hy : y < 32) :
    ((C.set_pixel x y true).get_pixel x y = true)
  ∧ ((C.set_pixel x y false).get_pixel x y = false)
  ∧ (Canvas.init.get_pixel x y = false) := by
  refine ⟨?_, ?_, ?_⟩
  · simp only [Canvas.get_pixel, Canvas.set_pixel, readByte_writeByteAt_self]
    simp [Nat.testBit_or, testBit_one_shiftLeft]
  · simp only [Canvas.get_pixel, Canvas.set_pixel, readByte_writeByteAt_self]
    simp [Nat.testBit_ldiff, testBit_one_shiftLeft]
  · simp [Canvas.get_pixel, Canvas.init, readByte, Nat.zero_testBit]

/-- Witness for `set_pixel_get_pixel` at the concrete coordinates (5, 9). -/
theorem set_pixel_get_pixel_witness :
    (5 < 8192 ∧ 9 < 32)
  ∧ (((Canvas.init.set_pixel 5 9 true).get_pixel 5 9 = true)
      ∧ ((Canvas.init.set_pixel 5 9 false).get_pixel 5 9 = false)
      ∧ (Canvas.init.get_pixel 5 9 = false)) :=
  ⟨by decide, set_pixel_get_pixel Canvas.init 5 9 (by decide) (by decide)⟩

/-- C10: setting one in-bounds pixel changes no other in-bounds pixel —
`get_pixel(x', y')` reads the same value before and after
`set_pixel(x, y, c)` whenever `(x', y') ≠ (x, y)`. -/
theorem set_pixel_frame (C : Canvas) (x y x' y' : Nat) (c : Bool)
    (hx : x < 8192) (hy : y < 32) (hx' : x' < 8192) (hy' : y' < 32)
    (hne : (x', y') ≠ (x, y)) :
    (C.set_pixel x y c).get_pixel x' y' = C.get_pixel x' y' := by
  have hxyne : ¬ (x' = x ∧ y' = y) := by simpa [Prod.ext_iff] using hne
  by_cases hp : pixelPos x' y' = pixelPos x y
  · have hk : (7 - y % 8) ≠ (7 - y' % 8) := by
      simp only [pixelPos, BYTES_PER_LINE] at hp
      omega
    simp only [Canvas.get_pixel, Canvas.set_pixel, hp, readByte_writeByteAt_self]
    cases c <;>
      simp [Nat.testBit_ldiff, Nat.testBit_or, testBit_one_shiftLeft, hk,
        -Nat.testBit_shiftLeft]
  · simp only [Canvas.get_pixel, Canvas.set_pixel,
      readByte_writeByteAt_ne _ _ _ _ hp]

/-- Witness for `set_pixel_frame`: setting (0, 0) leaves (1, 0) unchanged. -/
theorem set_pixel_frame_witness :
    (0 < 8192 ∧ 0 < 32 ∧ 1 < 8192 ∧ ((1, 0) : Nat × Nat) ≠ (0, 0))
  ∧ (Canvas.init.set_pixel 0 0 true).get_pixel 1 0 = Canvas.init.get_pixel 1 0 :=
  ⟨by decide, set_pixel_frame Canvas.init 0 0 1 0 true (by decide) (by decide)
    (by decide) (by decide) (by decide)⟩

/-- Index byte of the chunk at position `i` of a print payload: `i` below 27,
`i + 1` from 27 on. -/
theorem head_printChunks (data : List Nat) (i : Nat)
    (h : i < (printChunks data).length) :
    ((printChunks data).getD i []).headD 0 = if i < 27 then i else i + 1 := by
  rw [List.getD_eq_getElem _ _ h]
  simp only [printChunks, List.getElem_map, List.getElem_range]
  by_cases hmag : i * CHUNK_SIZE + CHUNK_SIZE ≥ data.length
  · simp only [hmag, if_true, ge_iff_le, List.cons_append, List.headD_cons]
    split_ifs <;> omega
  · simp only [hmag, if_false, ge_iff_le, List.headD_cons]
    split_ifs <;> omega

/-- C2: in every print payload, the indexed chunk at 0-based position `i`
carries a leading index byte equal to `i` for `i < 27` and to `i + 1` for
`i ≥ 27`; consequently the index bytes strictly increase and the value 27
never appears. -/
theorem create_payload_chunk_index (data : List Nat) (i : Nat)
    (h : i < (printChunks data).length) :
    (((printChunks data).getD i []).headD 0 = if i < 27 then i else i + 1)
  ∧ (((printChunks data).getD i []).headD 0 ≠ 27)
  ∧ (∀ j, j < i →
      ((printChunks data).getD j []).headD 0
        < ((printChunks data).getD i []).headD 0) := by
  refine ⟨head_printChunks data i h, ?_, ?_⟩
  · rw [head_printChunks data i h]
    split_ifs <;> omega
  · intro j hj
    rw [head_printChunks data i h, head_printChunks data j (by omega)]
    split_ifs <;> omega

/-- Witness for `create_payload_chunk_index`: the one-chunk payload of a
single data byte has index byte 0. -/
theorem create_payload_chunk_index_witness :
    (0 < (printChunks [7]).length)
  ∧ ((((printChunks [7]).getD 0 []).headD 0 = if 0 < 27 then 0 else 0 + 1)
      ∧ (((printChunks [7]).getD 0 []).headD 0 ≠ 27)
      ∧ (∀ j, j < 0 →
          ((printChunks [7]).getD j []).headD 0
            < ((printChunks [7]).getD 0 []).headD 0)) :=
  ⟨by decide, create_payload_chunk_index [7] 0 (by decide)⟩

/-- Stripping step of the chunking property: the leading index byte of every
indexed chunk is removed. -/
def stripIndexBytes (chunks : List (List Nat)) : List (List Nat) :=
  chunks.map List.tail

/-- Stripping step of the chunking property: the trailing 2-byte magic of the
last chunk is removed. -/
def stripMagicLast : List (List Nat) → List (List Nat)
  | [] => []
  | [c] => [c.dropLast.dropLast]
  | c :: rest => c :: stripMagicLast rest

/-- Dropping the last two elements after appending two elements. -/
theorem dropLast_dropLast_append (l : List Nat) (a b : Nat) :
    ((l ++ [a, b]).dropLast).dropLast = l := by
  have h2 : l ++ [a, b] = (l ++ [a]) ++ [b] := by simp
  rw [h2, List.dropLast_concat, List.dropLast_concat]

/-- stripMagicLast on a cons cell with a nonempty tail. -/
theorem stripMagicLast_cons (c : List Nat) (rest : List (List Nat))
    (h : rest ≠ []) : stripMagicLast (c :: rest) = c :: stripMagicLast rest := by
  cases rest with
  | nil => exact absurd rfl h
  | cons d ds => rfl

/-- One decomposition step: for nonempty data, the stripped chunk list of a
print payload is the first at-most-`CHUNK_SIZE` slice followed by the
stripped chunk list of the remaining data. -/
theorem stripped_printChunks_cons (data : List Nat) (h : data ≠ []) :
    stripMagicLast (stripIndexBytes (printChunks data))
      = data.take CHUNK_SIZE
          :: stripMagicLast (stripIndexBytes (printChunks (data.drop CHUNK_SIZE))) := by
  have hlen : 1 ≤ data.length := List.length_pos.mpr h
  by_cases hsmall : data.length ≤ CHUNK_SIZE
  · have hdrop : data.drop CHUNK_SIZE = [] := List.drop_eq_nil_of_le hsmall
    have hn : (data.length + CHUNK_SIZE - 1) / CHUNK_SIZE = 1 := by
      simp only [CHUNK_SIZE] at hsmall ⊢
      omega
    rw [hdrop, show printChunks [] = [] from rfl]
    simp only [printChunks, hn, show List.range 1 = [0] from rfl,
      List.map_cons, List.map_nil, stripIndexBytes, MAGIC,
      ge_iff_le, Nat.zero_mul, Nat.zero_add, hsmall, if_true,
      List.drop_zero, List.cons_append, List.tail_cons, stripMagicLast]
    rw [dropLast_dropLast_append]
  · have key : stripIndexBytes (printChunks data)
        = data.take CHUNK_SIZE
            :: stripIndexBytes (printChunks (data.drop CHUNK_SIZE)) := by
      simp only [printChunks, stripIndexBytes, List.map_map, List.length_drop]
      rw [show (data.length + CHUNK_SIZE - 1) / CHUNK_SIZE
            = (data.length - CHUNK_SIZE + CHUNK_SIZE - 1) / CHUNK_SIZE + 1 from by
          simp only [CHUNK_SIZE] at hsmall ⊢
          omega]
      rw [List.range_succ_eq_map, List.map_cons, List.map_map]
      refine congrArg₂ List.cons ?_ ?_
      · simp only [Function.comp_apply, ge_iff_le, Nat.zero_mul, Nat.zero_add,
          hsmall, if_false, List.drop_zero, List.tail_cons]
      · refine List.map_congr_left fun i _ => ?_
        simp only [Function.comp_apply, Nat.succ_eq_add_one]
        have hchunk : (data.drop ((i + 1) * CHUNK_SIZE)).take CHUNK_SIZE
            = ((data.drop CHUNK_SIZE).drop (i * CHUNK_SIZE)).take CHUNK_SIZE := by
          rw [List.drop_drop]
          congr 2
          ring
        by_cases hcnd : data.length ≤ (i + 1) * CHUNK_SIZE + CHUNK_SIZE
        · have hcnd' : data.length - CHUNK_SIZE ≤ i * CHUNK_SIZE + CHUNK_SIZE := by
            simp only [CHUNK_SIZE] at hcnd ⊢
            omega
          simp only [ge_iff_le, hcnd, hcnd', if_true, List.cons_append,
            List.tail_cons, hchunk]
        · have hcnd' : ¬ (data.length - CHUNK_SIZE ≤ i * CHUNK_SIZE + CHUNK_SIZE) := by
            simp only [CHUNK_SIZE] at hcnd hsmall ⊢
            omega
          simp only [ge_iff_le, hcnd, hcnd', if_false, List.tail_cons, hchunk]
    rw [key]
    refine stripMagicLast_cons _ _ ?_
    simp only [stripIndexBytes, printChunks, List.length_drop, ne_eq,
      List.map_eq_nil_iff, List.range_eq_nil]
    simp only [CHUNK_SIZE] at hsmall ⊢
    omega

/-- Concatenating the stripped chunks of a print payload reproduces the
framed data (strong induction on the data length). -/
theorem stripped_printChunks_flatten (data : List Nat) :
    (stripMagicLast (stripIndexBytes (printChunks data))).flatten = data := by
  have main : ∀ n (d : List Nat), d.length ≤ n →
      (stripMagicLast (stripIndexBytes (printChunks d))).flatten = d := by
    intro n
    induction n with
    | zero =>
      intro d hd
      have hnil : d = [] := by
        cases d with
        | nil => rfl
        | cons a as => simp at hd
      subst hnil
      rfl
    | succ n ih =>
      intro d hd
      by_cases hnil : d = []
      · subst hnil
        rfl
      · rw [stripped_printChunks_cons d hnil, List.flatten_cons,
          ih (d.drop CHUNK_SIZE) (by
            have h1 : 1 ≤ d.length := List.length_pos.mpr hnil
            simp only [List.length_drop, CHUNK_SIZE]
            omega)]
        exact List.take_append_drop _ _
  exact main data.length data le_rfl

/-- Every stripped chunk of a print payload has at most `CHUNK_SIZE` bytes. -/
theorem stripped_printChunks_le (data : List Nat) :
    ∀ p ∈ stripMagicLast (stripIndexBytes (printChunks data)),
      p.length ≤ CHUNK_SIZE := by
  have main : ∀ n (d : List Nat), d.length ≤ n →
      ∀ p ∈ stripMagicLast (stripIndexBytes (printChunks d)),
        p.length ≤ CHUNK_SIZE := by
    intro n
    induction n with
    | zero =>
      intro d hd p hp
      have hnil : d = [] := by
        cases d with
        | nil => rfl
        | cons a as => simp at hd
      subst hnil
      simp only [show stripMagicLast (stripIndexBytes (printChunks [])) = []
        from rfl, List.not_mem_nil] at hp
    | succ n ih =>
      intro d hd p hp
      by_cases hnil : d = []
      · subst hnil
        simp only [show stripMagicLast (stripIndexBytes (printChunks [])) = []
          from rfl, List.not_mem_nil] at hp
      · rw [stripped_printChunks_cons d hnil] at hp
        rcases List.mem_cons.mp hp with hp | hp
        · rw [hp]
          simp only [List.length_take]
          omega
        · exact ih (d.drop CHUNK_SIZE) (by
            have h1 : 1 ≤ d.length := List.length_pos.mpr hnil
            simp only [List.length_drop, CHUNK_SIZE]
            omega) p hp
  exact main data.length data le_rfl

/-- C1 (amended): the print payload is the 9-byte header chunk followed by
the indexed chunks; each indexed chunk carries at most `CHUNK_SIZE` data
bytes after its leading index byte (the trailing 2-byte magic of the last
chunk not counted); concatenating all indexed chunks after stripping each
chunk's index byte and the last chunk's magic reproduces the data; for data
of length 1 to `CHUNK_SIZE` exactly one indexed chunk is produced, while
for empty data no indexed chunk is produced at all. -/
theorem create_payload_chunking (data : List Nat) :
    (create_payload data true = payloadHeader data.length :: printChunks data)
  ∧ (∀ p ∈ stripMagicLast (stripIndexBytes (printChunks data)),
      p.length ≤ CHUNK_SIZE)
  ∧ ((stripMagicLast (stripIndexBytes (printChunks data))).flatten = data)
  ∧ (1 ≤ data.length → data.length ≤ CHUNK_SIZE → (printChunks data).length = 1)
  ∧ (data.length = 0 → (printChunks data).length = 0) := by
  refine ⟨rfl, stripped_printChunks_le data, stripped_printChunks_flatten data,
    ?_, ?_⟩
  · intro h1 h2
    simp only [CHUNK_SIZE] at h2
    simp only [printChunks, List.length_map, List.length_range, CHUNK_SIZE]
    omega
  · intro h0
    simp only [printChunks, List.length_map, List.length_range, CHUNK_SIZE, h0]

/-- Witness for `create_payload_chunking` at the concrete data `[1, 2, 3]`. -/
theorem create_payload_chunking_witness :
    (1 ≤ ([1, 2, 3] : List Nat).length ∧ ([1, 2, 3] : List Nat).length ≤ CHUNK_SIZE)
  ∧ (printChunks [1, 2, 3]).length = 1 :=
  ⟨⟨by decide, by decide⟩,
    (create_payload_chunking [1, 2, 3]).2.2.2.1 (by decide) (by decide)⟩

/-- C1 counterexample: for empty data the print payload consists of the
header chunk alone — zero indexed chunks are produced, not exactly one. -/
theorem create_payload_empty_counterexample :
    create_payload [] true = [[255, 240, 18, 52, 0, 0, 0, 0, 53]]
  ∧ (printChunks []).length ≠ 1 := by decide

/-- C3: the payload header is exactly the 9 bytes 255, 240, the magic 18, 52,
the data length as 4 little-endian bytes, and a checksum byte equal to the
sum of the first 8 header bytes mod 256; every payload's first chunk begins
with this header, and for a non-print payload the single chunk produced is
the header with the full data appended. -/
theorem create_payload_header_format (data : List Nat)
    (h : data.length < 4294967296) :
    ((payloadHeader data.length).length = 9)
  ∧ (payloadHeader data.length
      = ([255, 240, 18, 52] ++ toBytesLE4 data.length)
          ++ [([255, 240, 18, 52] ++ toBytesLE4 data.length).sum % 256])
  ∧ (∀ b : Bool, ((create_payload data b).headD []).take 9
      = payloadHeader data.length)
  ∧ (create_payload data false = [payloadHeader data.length ++ data]) := by
  have hlen : (payloadHeader data.length).length = 9 := by
    simp [payloadHeader, MAGIC, toBytesLE4]
  refine ⟨hlen, ?_, ?_, rfl⟩
  · simp only [payloadHeader, MAGIC, toBytesLE4, List.cons_append,
      List.nil_append, List.sum_cons, List.sum_nil, List.cons.injEq,
      and_true, true_and]
  · intro b
    cases b
    · rw [show create_payload data false = [payloadHeader data.length ++ data]
        from rfl, List.headD_cons,
        show (9 : Nat) = (payloadHeader data.length).length from hlen.symm,
        List.take_left]
    · rw [show create_payload data true
          = payloadHeader data.length :: printChunks data from rfl,
        List.headD_cons]
      exact List.take_of_length_le (le_of_eq hlen)

/-- Witness for `create_payload_header_format` at the data `[1, 2, 3]`. -/
theorem create_payload_header_format_witness :
    (([1, 2, 3] : List Nat).length < 4294967296)
  ∧ (create_payload [1, 2, 3] false
      = [payloadHeader ([1, 2, 3] : List Nat).length ++ [1, 2, 3]]) :=
  ⟨by decide, (create_payload_header_format [1, 2, 3] (by decide)).2.2.2⟩

/-- C4: for a reply of length at least 3, decoding fails with the
malformed-reply error unless the first two bytes are 27 and 82; under that
two-byte preamble, code 5 decodes to FAILED, code 1 decodes to SUCCESS,
every enumeration value decodes to its member, and every remaining code
fails with the unrecognized-code error. -/
theorem result_from_bytes_cases (b0 b1 b2 : Nat) (rest : List Nat) :
    (¬ (b0 = 27 ∧ b1 = 82) →
      Result.from_bytes (b0 :: b1 :: b2 :: rest) = .error .malformed)
  ∧ (b0 = 27 → b1 = 82 →
      ((b2 = 5 → Result.from_bytes (b0 :: b1 :: b2 :: rest) = .ok .FAILED)
      ∧ (b2 = 1 → Result.from_bytes (b0 :: b1 :: b2 :: rest) = .ok .SUCCESS)
      ∧ (∀ r : Result, r.value = b2 →
          Result.from_bytes (b0 :: b1 :: b2 :: rest) = .ok r)
      ∧ (b2 ≠ 0 → b2 ≠ 1 → b2 ≠ 2 → b2 ≠ 3 → b2 ≠ 4 → b2 ≠ 5 → b2 ≠ 6 →
          b2 ≠ 7 →
          Result.from_bytes (b0 :: b1 :: b2 :: rest)
            = .error .unrecognized))) := by
  constructor
  · intro hne
    by_cases h0 : b0 = 27
    · have h1 : b1 ≠ 82 := fun hb => hne ⟨h0, hb⟩
      simp [Result.from_bytes, h0, h1]
    · simp [Result.from_bytes, h0]
  · intro h0 h1
    subst h0
    subst h1
    refine ⟨?_, ?_, ?_, ?_⟩
    · intro h2
      subst h2
      rfl
    · intro h2
      subst h2
      rfl
    · intro r hr
      cases r <;> (subst hr; rfl)
    · intro hv0 hv1 hv2 hv3 hv4 hv5 hv6 hv7
      obtain ⟨n, hn⟩ : ∃ n, b2 = n + 8 := ⟨b2 - 8, by omega⟩
      subst hn
      rfl

/-- Witness for `result_from_bytes_cases`: the unrecognized code 9 under a
valid preamble fails with the unrecognized-code error. -/
theorem result_from_bytes_cases_witness :
    Result.from_bytes [27, 82, 9] = .error .unrecognized :=
  ((result_from_bytes_cases 27 82 9 []).2 rfl rfl).2.2.2
    (by decide) (by decide) (by decide) (by decide) (by decide) (by decide)
    (by decide) (by decide)

/-- C6: the directive stream framed by `command_print` is the 6-byte START
directive, then the PRINT_DATA directive — escape, opcode 68, 1 bit per
pixel, alignment 2, the width and height each as 4 little-endian bytes —
then exactly the serialized image `get_image`, then FORM_FEED, STATUS and
END; re-extracting the bytes between the height field and the trailing
directives reproduces `get_image`. -/
theorem command_print_embeds_image (C : Canvas) (h : C.width < 4294967296) :
    (command_print_payload C
      = ([27, 115, 154, 2, 0, 0]
          ++ ([27, 68, 1, 2] ++ toBytesLE4 C.width ++ toBytesLE4 C.height))
          ++ (C.get_image ++ [27, 69, 27, 65, 27, 81]))
  ∧ (((command_print_payload C).drop 18).take C.get_image.length
      = C.get_image)
  ∧ (command_print C = create_payload (command_print_payload C) true) := by
  have h1 : command_print_payload C
      = ([27, 115, 154, 2, 0, 0]
          ++ ([27, 68, 1, 2] ++ toBytesLE4 C.width ++ toBytesLE4 C.height))
          ++ (C.get_image ++ [27, 69, 27, 65, 27, 81]) := by
    simp [command_print_payload, DirectiveBuilder.start, DirectiveBuilder.print,
      DirectiveBuilder.form_feed, DirectiveBuilder.status,
      DirectiveBuilder.end_job, DirectiveCommand.to_bytes,
      DirectiveCommand.opcode, toBytesLE4]
  refine ⟨h1, ?_, rfl⟩
  rw [h1, show (18 : Nat)
      = ([27, 115, 154, 2, 0, 0]
          ++ ([27, 68, 1, 2] ++ toBytesLE4 C.width ++ toBytesLE4 C.height)).length
      from by simp [toBytesLE4], List.drop_left, List.take_left]

/-- Witness for `command_print_embeds_image` on the fresh empty canvas. -/
theorem command_print_embeds_image_witness :
    (Canvas.init.width < 4294967296)
  ∧ (((command_print_payload Canvas.init).drop 18).take
        Canvas.init.get_image.length
      = Canvas.init.get_image) :=
  ⟨by decide, (command_print_embeds_image Canvas.init (by decide)).2.1⟩

/-- C5 (code bug): a single `set_pixel` on a fresh canvas leaves a buffer of
1 byte — not a multiple of the 4 bytes per column — and `get_image` then
serializes to 2 bytes, because the source pads with `length % 4` zeros
instead of the `(4 - length % 4) % 4` zeros needed to complete a column. -/
theorem canvas_buffer_alignment_bug :
    ((Canvas.init.set_pixel 0 31 true).buffer.length = 1)
  ∧ ((Canvas.init.set_pixel 0 31 true).buffer.length % BYTES_PER_LINE ≠ 0)
  ∧ ((Canvas.init.set_pixel 0 31 true).get_image.length = 2)
  ∧ ((Canvas.init.set_pixel 0 31 true).get_image.length % BYTES_PER_LINE ≠ 0)
    := by decide

/-- C7 (code bug): on the canvas obtained from a fresh canvas by
`set_pixel(0, 31, True)`, `fill(0, 0)` is not equal to the original canvas
under `Canvas.__eq__` — its serialized image gains two extra padding bytes
through the faulty `get_image` padding. -/
theorem canvas_fill_zero_bug :
    (Canvas.image_eq ((Canvas.init.set_pixel 0 31 true).fill 0 0)
        (Canvas.init.set_pixel 0 31 true) = false)
  ∧ (((Canvas.init.set_pixel 0 31 true).fill 0 0).get_image = [1, 0, 0, 0])
  ∧ ((Canvas.init.set_pixel 0 31 true).get_image = [1, 0]) := by decide

/-- C9 counterexample: when the first notification decodes to FAILED (raw
code 2), it is not discarded — the pending result is resolved with the
first notification's FAILED, not with the second notification's SUCCESS. -/
theorem reply_first_not_discarded_counterexample :
    ((run_replies [[27, 82, 2], [27, 82, 0]]).resolutions = [Result.FAILED])
  ∧ ((run_replies [[27, 82, 2], [27, 82, 0]]).resolutions
      ≠ [Result.SUCCESS]) := by decide

/-- C9 (amended): the first received notification is discarded exactly when
it decodes to a result of wire value 0 or 1 (i.e. SUCCESS); in a job whose
two well-formed notifications start with such a transient reply, the
pending result is resolved exactly once, with the second notification's
decoded result. -/
theorem reply_discard_success_first (n1 n2 : List Nat) (r2 : Result)
    (h1 : Result.from_bytes n1 = .ok Result.SUCCESS)
    (h2 : Result.from_bytes n2 = .ok r2) :
    run_replies [n1, n2] = ⟨true, [r2]⟩ := by
  simp [run_replies, reply_get, h1, h2, ReplySession.init, Result.value]

/-- Witness for `reply_discard_success_first`: the spec scenario — first
notification `[27, 82, 1]` is discarded, second `[27, 82, 0]` resolves the
result as SUCCESS. -/
theorem reply_discard_success_first_witness :
    (Result.from_bytes [27, 82, 1] = .ok Result.SUCCESS
      ∧ Result.from_bytes [27, 82, 0] = .ok Result.SUCCESS)
  ∧ run_replies [[27, 82, 1], [27, 82, 0]] = ⟨true, [Result.SUCCESS]⟩ :=
  ⟨⟨rfl, rfl⟩, reply_discard_success_first [27, 82, 1] [27, 82, 0]
    Result.SUCCESS rfl rfl⟩
